import Mathlib

/-!
Verification of the Alpha-Vantage Finance Metrics Dashboard ETL core
(src/index.js and src/services/alphaVantage.js), as a shallow embedding:

* JavaScript numeric coercions are modelled over ℚ (the pipeline stores
  full precision and every claim's value is exactly representable);
  `Number(string)` is modelled on its decimal fragment (optional sign,
  digits, optional decimal point); inputs outside this fragment
  (hex/exponent forms) parse to `none`, which `safeNum` maps to 0
  exactly as the runtime's non-finite / NaN results do.
* Nullable fields are `Option` values; JS truthiness of a nullable
  number is "present and non-zero", of a nullable string "present and
  non-empty".
-/

namespace AVDash

/-- Digit value of a decimal digit character. -/
def digitVal (c : Char) : ℕ := c.toNat - '0'.toNat

/-- Value of a list of decimal digit characters, most significant first. -/
def digitsVal (cs : List Char) : ℕ := cs.foldl (fun a c => 10 * a + digitVal c) 0

/-- All characters are decimal digits. -/
def allDigits (cs : List Char) : Bool := cs.all Char.isDigit

/-- Leading- and trailing-whitespace trim on character lists (models
`String.prototype.trim` and the trimming `Number()` performs). -/
def trimChars (cs : List Char) : List Char :=
  ((cs.dropWhile Char.isWhitespace).reverse.dropWhile Char.isWhitespace).reverse

/-- Unsigned decimal literal fragment of JS `Number(string)`:
digits, optionally with one decimal point (`"12"`, `"12.5"`, `".5"`, `"12."`).
Returns `none` where the runtime yields NaN (or a form outside the
modelled decimal fragment). -/
def parseUnsigned (cs : List Char) : Option ℚ :=
  let intPart := cs.takeWhile (fun c => c ≠ '.')
  match cs.dropWhile (fun c => c ≠ '.') with
  | [] =>
      if intPart ≠ [] ∧ allDigits intPart then some (digitsVal intPart) else none
  | '.' :: frac =>
      if (intPart ≠ [] ∨ frac ≠ []) ∧ allDigits intPart ∧ allDigits frac then
        some (mkRat (digitsVal intPart * 10 ^ frac.length + digitsVal frac) (10 ^ frac.length))
      else none
  | _ :: _ => none

/-- Signed decimal literal: optional leading `-` or `+` then `parseUnsigned`. -/
def parseSigned : List Char → Option ℚ
  | [] => parseUnsigned []
  | c :: rest =>
      if c = '-' then (parseUnsigned rest).map (fun q => -q)
      else if c = '+' then parseUnsigned rest
      else parseUnsigned (c :: rest)

/-- Model of JS `Number(string)` on the decimal fragment: trims whitespace,
maps the empty string to 0, otherwise parses a signed decimal literal;
`none` stands for a NaN (or non-finite / unmodelled) result. -/
def jsNumber (cs : List Char) : Option ℚ :=
  let t := trimChars cs
  if t = [] then some 0 else parseSigned t

/-- The character rewriting of `safeNum`:
`String(val).replace(/,/g, "").replace(/\x7b(/g, "-").replace(/\x7d)/g, "")`
— drop every comma, turn every opening parenthesis into a minus sign,
drop every closing parenthesis. -/
def stripChars (cs : List Char) : List Char :=
  cs.foldr
    (fun c acc =>
      if c = ',' ∨ c = ')' then acc
      else if c = '(' then '-' :: acc
      else c :: acc) []

/-- `safeNum` from src/index.js on a string input: rewrite the characters,
trim, convert with `Number`, and return 0 unless the result is finite.
(`jsNumber = none` covers exactly the non-finite outcomes.) -/
def safeNumStr (s : String) : ℚ :=
  match jsNumber (trimChars (stripChars s.data)) with
  | some q => q
  | none => 0

/-- `safeNum` from src/index.js over a nullable string field:
`undefined`/`null` return 0 directly.  All call sites pass either a raw
report string or the literal `0` (via `?? 0`), and `safeNum(0) = 0 =
safeNum(undefined)`, so the absent case also covers the literal-0 default. -/
def safeNum (v : Option String) : ℚ :=
  match v with
  | none => 0
  | some s => safeNumStr s

example : safeNum (some "1,234,567") = 1234567 := by decide
example : safeNum (some "(500)") = -500 := by decide
example : safeNum (some "abc") = 0 := by decide
example : safeNum (some " 12.5 ") = mkRat 25 2 := by decide
example : safeNum none = 0 := by decide
example : safeNum (some "") = 0 := by decide
example : safeNum (some "(1,500)") = -1500 := by decide
example : safeNum (some "--5") = 0 := by decide

/-- Hexadecimal digit test, for the auto-radix branch of JS `parseInt`. -/
def isHexDigit (c : Char) : Bool :=
  c.isDigit ∨ ('a' ≤ c ∧ c ≤ 'f') ∨ ('A' ≤ c ∧ c ≤ 'F')

/-- Value of a hexadecimal digit character. -/
def hexDigitVal (c : Char) : ℕ :=
  if c.isDigit then digitVal c
  else if 'a' ≤ c ∧ c ≤ 'f' then c.toNat - 'a'.toNat + 10
  else c.toNat - 'A'.toNat + 10

/-- Value of a list of hexadecimal digit characters, most significant first. -/
def hexVal (cs : List Char) : ℕ := cs.foldl (fun a c => 16 * a + hexDigitVal c) 0

/-- Model of JS `parseInt(string)` with the radix argument omitted: skip
leading whitespace, take an optional sign, then the longest prefix of
decimal digits — or of hexadecimal digits after a `0x`/`0X` marker —
returning `none` (NaN) when that prefix is empty. -/
def parseIntJS (cs : List Char) : Option ℤ :=
  let t := cs.dropWhile Char.isWhitespace
  let su : ℤ × List Char :=
    match t with
    | '-' :: r => (-1, r)
    | '+' :: r => (1, r)
    | _ => (1, t)
  match su.2 with
  | '0' :: x :: r =>
      if x = 'x' ∨ x = 'X' then
        let h := r.takeWhile isHexDigit
        if h = [] then none else some (su.1 * hexVal h)
      else
        let d := (('0' : Char) :: x :: r).takeWhile Char.isDigit
        if d = [] then none else some (su.1 * digitsVal d)
  | u =>
      let d := u.takeWhile Char.isDigit
      if d = [] then none else some (su.1 * digitsVal d)

example : parseIntJS "2023".data = some 2023 := by decide
example : parseIntJS " -45x".data = some (-45) := by decide
example : parseIntJS "n/a".data = none := by decide
example : parseIntJS "0x1F".data = some 31 := by decide

/-- A raw annual report record as returned by the upstream API: every field
the pipeline reads is a nullable string (`none` for a JSON `null` or an
absent key).  Income reports populate the revenue/income fields, balance
reports the assets/liabilities fields; the JS records are untyped maps, so
one record shape serves both kinds. -/
structure Report where
  fiscalDateEnding : Option String := none
  totalRevenue : Option String := none
  grossProfit : Option String := none
  netIncome : Option String := none
  totalAssets : Option String := none
  totalLiabilities : Option String := none
deriving DecidableEq, Repr

/-- The fiscal-year key a record contributes to the per-year lookup:
`r?.fiscalDateEnding ? parseInt(r.fiscalDateEnding.slice(0, 4)) : null`
guarded by `if (fy)`.  `none` when the date is absent, the empty string
(falsy), parses to NaN, or parses to 0 (falsy). -/
def yearKey (r : Report) : Option ℤ :=
  match r.fiscalDateEnding with
  | none => none
  | some d =>
      if d = "" then none
      else
        match parseIntJS (d.data.take 4) with
        | none => none
        | some n => if n = 0 then none else some n

example : yearKey { fiscalDateEnding := some "2023-12-31" } = some 2023 := by decide
example : yearKey { fiscalDateEnding := some "n/a" } = none := by decide
example : yearKey { fiscalDateEnding := some "0000-01-01" } = none := by decide
example : yearKey { fiscalDateEnding := none } = none := by decide

/-- JS object assignment `obj[k] = v` on a year-keyed object: replace the
value in place if the key exists, otherwise append the new binding. -/
def setYear (l : List (ℤ × Report)) (k : ℤ) (v : Report) : List (ℤ × Report) :=
  if l.any (fun p => p.1 == k) then
    l.map (fun p => if p.1 == k then (k, v) else p)
  else l ++ [(k, v)]

/-- One step of the year-lookup construction: the body of
`annualReports.forEach(r => { const fy = ...; if (fy) byYear[fy] = r })`. -/
def buildStep (acc : List (ℤ × Report)) (r : Report) : List (ℤ × Report) :=
  match yearKey r with
  | some fy => setYear acc fy r
  | none => acc

/-- The `incomeByYear` / `balanceByYear` construction of /load: fold the
report sequence into a year-keyed object, skipping records whose year key
is falsy; a later record with the same year overwrites the earlier one. -/
def buildByYear (rs : List Report) : List (ℤ × Report) :=
  rs.foldl buildStep []

/-- Property access `obj[y]` on the year-keyed object. -/
def lookupYear (l : List (ℤ × Report)) (y : ℤ) : Option Report :=
  (l.find? (fun p => p.1 == y)).map (fun p => p.2)

/-- A row of the `financial_statements` table as written by /load: the
numeric fields come from `safeNum`, hence are never null. -/
structure PersistedRow where
  fiscal_year : ℤ
  revenue : ℚ
  net_income : ℚ
  total_assets : ℚ
  total_liabilities : ℚ
deriving DecidableEq, Repr

/-- The revenue source field: `inc.grossProfit ?? inc.totalRevenue ?? 0`.
`grossProfit` takes precedence whenever it is present (non-nullish); the
trailing `?? 0` literal is absorbed by `safeNum none = 0 = safeNum(0)`. -/
def revenueField (inc : Report) : Option String :=
  match inc.grossProfit with
  | some s => some s
  | none => inc.totalRevenue

/-- One reconciled statement row, as assembled in the /load year loop from
the income record and the balance record of the same fiscal year. -/
def mkRow (year : ℤ) (inc bal : Report) : PersistedRow :=
  { fiscal_year := year
    revenue := safeNum (revenueField inc)
    net_income := safeNum inc.netIncome
    total_assets := safeNum bal.totalAssets
    total_liabilities := safeNum bal.totalLiabilities }

/-- The /load per-company year loop: iterate over the keys of
`incomeByYear`; skip years below `yearLimit` (= current year − 3); skip
years with no balance record; otherwise parse and emit the reconciled row.
(Object keys in the model are integers directly, so the
`parseInt(yearStr)` / `Number.isNaN(year)` round-trip of the source is the
identity and its NaN branch is unreachable.)  This is the body run for one
candidate year. -/
def reconcileYear (incomeByYear balanceByYear : List (ℤ × Report)) (yearLimit year : ℤ) :
    Option PersistedRow :=
  if year < yearLimit then none
  else
    match lookupYear incomeByYear year, lookupYear balanceByYear year with
    | some inc, some bal => some (mkRow year inc bal)
    | _, _ => none

/-- The /load per-company year loop: build both lookups, iterate over the
keys of `incomeByYear`, and collect the reconciled rows `reconcileYear`
produces. -/
def writtenRows (income balance : List Report) (yearLimit : ℤ) : List PersistedRow :=
  let incomeByYear := buildByYear income
  let balanceByYear := buildByYear balance
  (incomeByYear.map (fun p => p.1)).filterMap
    (reconcileYear incomeByYear balanceByYear yearLimit)

/-- The raw JSON body of an upstream statement response, reduced to the
three members `fetchStatement` inspects. -/
structure ApiResponse where
  note : Option String := none
  information : Option String := none
  annualReports : Option (List Report) := none

/-- Outcome of the network round trip inside `fetchStatement`: a parsed
JSON body, or a thrown fetch/decode error (the catch branch). -/
inductive FetchOutcome where
  | ok (data : ApiResponse)
  | failed

/-- JS truthiness of a nullable string: present and non-empty. -/
def jsTruthyStr (v : Option String) : Bool :=
  match v with
  | some s => s ≠ ""
  | none => false

/-- `fetchStatement` from src/services/alphaVantage.js, reduced to the
`annualReports` list /load consumes: a truthy `Note` (rate limit), a
truthy `Information` (informational-only), a missing or empty
`annualReports`, and a thrown fetch error all normalize to the empty
report list; otherwise the reports pass through unchanged. -/
def fetchStatementReports (o : FetchOutcome) : List Report :=
  match o with
  | .failed => []
  | .ok d =>
      if jsTruthyStr d.note then []
      else if jsTruthyStr d.information then []
      else
        match d.annualReports with
        | none => []
        | some [] => []
        | some rs => rs

/-- Statement rows written for one company in one /load cycle.
(`fetchStatement` always returns an object whose `annualReports` is an
array, and an array — even empty — is truthy, so the
`!income?.annualReports || !balance?.annualReports` skip in /load never
fires on these results and the year loop runs directly.) -/
def loadCompanyRows (incomeFetch balanceFetch : FetchOutcome) (yearLimit : ℤ) :
    List PersistedRow :=
  writtenRows (fetchStatementReports incomeFetch) (fetchStatementReports balanceFetch)
    yearLimit

/-- A row of the /metrics SQL result: symbol and name from `companies`,
the four numeric fields from `financial_statements` (nullable NUMERIC). -/
structure DbRow where
  symbol : String
  name : String
  fiscal_year : ℤ
  revenue : Option ℚ
  net_income : Option ℚ
  total_assets : Option ℚ
  total_liabilities : Option ℚ
deriving DecidableEq, Repr

/-- One element of the /metrics response. -/
structure MetricRow where
  symbol : String
  name : String
  fiscal_year : ℤ
  net_margin : Option ℚ
  current_ratio : Option ℚ
  revenue_yoy : Option ℚ
  net_income_yoy : Option ℚ
deriving DecidableEq, Repr

/-- JS truthiness of a nullable number: present and non-zero
(`null`, `0` and `-0` are falsy; NaN never occurs among stored values). -/
def truthyNum (v : Option ℚ) : Bool :=
  match v with
  | some q => q ≠ 0
  | none => false

/-- JS arithmetic coercion of a nullable number: `null` coerces to 0. -/
def toNum (v : Option ℚ) : ℚ := v.getD 0

/-- The prior-year lookup of /metrics:
`arr.find(r => r.symbol === row.symbol && r.fiscal_year === row.fiscal_year - 1)`
— a scan of the whole result set by symbol/year equality, not adjacency. -/
def findPrev (arr : List DbRow) (row : DbRow) : Option DbRow :=
  arr.find? (fun r => r.symbol == row.symbol && r.fiscal_year == row.fiscal_year - 1)

/-- The /metrics map body for one row: ratios guarded by truthiness of
their denominator, year-over-year fields guarded by the prior-year row
existing with a truthy value. -/
def deriveRow (arr : List DbRow) (row : DbRow) : MetricRow :=
  let prev := findPrev arr row
  { symbol := row.symbol
    name := row.name
    fiscal_year := row.fiscal_year
    net_margin :=
      if truthyNum row.revenue then some (toNum row.net_income / toNum row.revenue * 100)
      else none
    current_ratio :=
      if truthyNum row.total_liabilities then
        some (toNum row.total_assets / toNum row.total_liabilities)
      else none
    revenue_yoy :=
      match prev with
      | some p =>
          if truthyNum p.revenue then
            some ((toNum row.revenue - toNum p.revenue) / toNum p.revenue * 100)
          else none
      | none => none
    net_income_yoy :=
      match prev with
      | some p =>
          if truthyNum p.net_income then
            some ((toNum row.net_income - toNum p.net_income) / toNum p.net_income * 100)
          else none
      | none => none }

/-- The /metrics response: map every row of the result set through
`deriveRow`, the whole set in scope for the prior-year scan. -/
def metricsMap (rows : List DbRow) : List MetricRow := rows.map (deriveRow rows)

/-- A row of the `financial_statements` table (store-side model for the
upsert; key columns plus the four numeric columns). -/
structure FSRow where
  company_id : ℕ
  fiscal_year : ℤ
  revenue : ℚ
  net_income : ℚ
  total_assets : ℚ
  total_liabilities : ℚ
deriving DecidableEq, Repr

/-- Key equality on the primary key (company_id, fiscal_year). -/
def fsKeyMatch (cid : ℕ) (fy : ℤ) (r : FSRow) : Bool :=
  r.company_id == cid && r.fiscal_year == fy

/-- The DO UPDATE action of the upsert: on the conflicting row, replace
the four numeric columns with the excluded (new) values; leave every
other row untouched. -/
def updateVals (cid : ℕ) (fy : ℤ) (rev ni ta tl : ℚ) (r : FSRow) : FSRow :=
  if fsKeyMatch cid fy r then
    { r with revenue := rev, net_income := ni, total_assets := ta, total_liabilities := tl }
  else r

/-- The /load statement write:
`INSERT INTO financial_statements ... ON CONFLICT (company_id, fiscal_year)
DO UPDATE SET revenue/net_income/total_assets/total_liabilities = EXCLUDED...`
— if a row with the key exists its four numeric columns are replaced,
otherwise a fresh row is inserted. -/
def upsertYearlyStatement (t : List FSRow) (cid : ℕ) (fy : ℤ) (rev ni ta tl : ℚ) :
    List FSRow :=
  if t.any (fsKeyMatch cid fy) then t.map (updateVals cid fy rev ni ta tl)
  else t ++ [⟨cid, fy, rev, ni, ta, tl⟩]

/-- The table invariant enforced by the primary-key constraint
`financial_statements_pkey`: no two rows share (company_id, fiscal_year). -/
def keyUnique (t : List FSRow) : Prop :=
  List.Pairwise (fun a b => ¬(a.company_id = b.company_id ∧ a.fiscal_year = b.fiscal_year)) t

/-- The HTTP response /load sends to its caller. -/
inductive LoadResponse where
  | ok (body : String)
  | serverError (body : String)
deriving DecidableEq, Repr

/-- The tail of /load: `try { INSERT INTO etl_runs ... } catch (err) {
console.error("Failed to record ETL run:", ...) }` followed unconditionally
by `res.send("Data loaded")`.  The catch swallows the insert failure, so
both branches fall through to the success response; only an error escaping
the outer try (total store unavailability) reaches the 500 handler. -/
def loadFinish (etlInsertSucceeds : Bool) : LoadResponse :=
  let _log : Option String :=
    if etlInsertSucceeds then none else some "Failed to record ETL run:"
  LoadResponse.ok "Data loaded"

/-! ### Lemmas on the year-keyed lookup construction -/

lemma lookupYear_nil (y : ℤ) : lookupYear [] y = none := rfl

lemma lookupYear_cons (p : ℤ × Report) (l : List (ℤ × Report)) (y : ℤ) :
    lookupYear (p :: l) y = if p.1 = y then some p.2 else lookupYear l y := by
  by_cases h : p.1 = y
  · simp [lookupYear, List.find?_cons_of_pos, h]
  · simp [lookupYear, List.find?_cons_of_neg, h]

/-- Rewriting the value stored under key `k` does not change lookups of any
other key. -/
lemma lookupYear_map_upd (l : List (ℤ × Report)) (k : ℤ) (v : Report) (y : ℤ)
    (hyk : y ≠ k) :
    lookupYear (l.map (fun q => if q.1 == k then (k, v) else q)) y = lookupYear l y := by
  induction l with
  | nil => rfl
  | cons q t ih =>
      rw [List.map_cons, lookupYear_cons, lookupYear_cons]
      by_cases hq : q.1 = k
      · have h1 : (if q.1 == k then (k, v) else q) = (k, v) := by simp [hq]
        rw [h1, if_neg (fun hh : (k, v).1 = y => hyk hh.symm), if_neg (hq ▸ fun hh => hyk hh.symm)]
        exact ih
      · have h1 : (if q.1 == k then (k, v) else q) = q := by simp [hq]
        rw [h1]
        by_cases hqy : q.1 = y
        · rw [if_pos hqy, if_pos hqy]
        · rw [if_neg hqy, if_neg hqy]
          exact ih

/-- When the head of the list does not carry key `k`, `setYear` leaves the
head alone and recurses into the tail. -/
lemma setYear_cons_of_ne (p : ℤ × Report) (l : List (ℤ × Report)) (k : ℤ) (v : Report)
    (hp : p.1 ≠ k) :
    setYear (p :: l) k v = p :: setYear l k v := by
  by_cases hany : l.any (fun q => q.1 == k)
  · simp [setYear, hany, hp]
  · simp [setYear, hany, hp]

/-- Assignment/lookup law of the year-keyed object: `byYear[k] = v` makes
the lookup of `k` return `v` and leaves every other key unchanged. -/
lemma lookupYear_setYear (l : List (ℤ × Report)) (k : ℤ) (v : Report) (y : ℤ) :
    lookupYear (setYear l k v) y = if y = k then some v else lookupYear l y := by
  induction l with
  | nil =>
      have h0 : setYear ([] : List (ℤ × Report)) k v = [(k, v)] := by simp [setYear]
      rw [h0, lookupYear_cons]
      by_cases h : y = k
      · rw [if_pos h, if_pos h.symm]
      · rw [if_neg h, if_neg (fun hh : (k, v).1 = y => h hh.symm)]
  | cons p t ih =>
      by_cases hp : p.1 = k
      · have hmap : setYear (p :: t) k v =
            (k, v) :: t.map (fun q => if q.1 == k then (k, v) else q) := by
          simp [setYear, hp]
        rw [hmap, lookupYear_cons]
        by_cases h : y = k
        · rw [if_pos h.symm, if_pos h]
        · rw [if_neg (fun hh : (k, v).1 = y => h hh.symm), if_neg h,
            lookupYear_cons, if_neg (fun hh : p.1 = y => h (hp ▸ hh ▸ rfl))]
          exact lookupYear_map_upd t k v y h

      · rw [setYear_cons_of_ne p t k v hp, lookupYear_cons, lookupYear_cons, ih]
        by_cases h : y = k
        · have hpy : ¬p.1 = y := fun hh => hp (hh.trans h)
          rw [if_neg hpy, if_pos h, if_pos h]
        · rw [if_neg h, if_neg h]

/-- Folding `buildStep` over a report sequence: the resulting lookup
returns the last record of the sequence carrying the requested year key,
falling back to the accumulator. -/
lemma lookupYear_foldl_buildStep (rs : List Report) (acc : List (ℤ × Report)) (y : ℤ) :
    lookupYear (rs.foldl buildStep acc) y =
      match rs.reverse.find? (fun r => yearKey r == some y) with
      | some r => some r
      | none => lookupYear acc y := by
  induction rs generalizing acc with
  | nil => simp
  | cons r t ih =>
      rw [List.foldl_cons, ih, List.reverse_cons, List.find?_append]
      have hstep : lookupYear (buildStep acc r) y =
          if yearKey r == some y then some r else lookupYear acc y := by
        cases hyk : yearKey r with
        | none => simp [buildStep, hyk]
        | some fy =>
            have hb : buildStep acc r = setYear acc fy r := by simp [buildStep, hyk]
            rw [hb, lookupYear_setYear]
            by_cases h : fy = y
            · subst h; simp
            · have h1 : ¬y = fy := fun hh => h hh.symm
              simp [beq_iff_eq, h, h1]
      cases hfind : t.reverse.find? (fun r => yearKey r == some y) with
      | some r₀ => simp
      | none =>
          have h1 : List.find? (fun r => yearKey r == some y) [r] =
              if (yearKey r == some y : Bool) then some r else none := by
            by_cases hr : (yearKey r == some y : Bool)
            · simp [List.find?_cons, hr]
            · simp [List.find?_cons, hr]
          by_cases hr : (yearKey r == some y : Bool)
          · simp [h1, hr, hstep]
          · simp [h1, hr, hstep]

/-- The year lookup built by /load returns the last report of the sequence
whose (valid) fiscal-year key matches, i.e. the first match in the
reversed sequence. -/
lemma lookupYear_buildByYear (rs : List Report) (y : ℤ) :
    lookupYear (buildByYear rs) y = rs.reverse.find? (fun r => yearKey r == some y) := by
  rw [buildByYear, lookupYear_foldl_buildStep]
  cases hf : rs.reverse.find? (fun r => yearKey r == some y) with
  | none => rfl
  | some r => rfl

lemma find?_eq_head?_filter (p : α → Bool) (l : List α) :
    l.find? p = (l.filter p).head? := by
  induction l with
  | nil => rfl
  | cons a t ih =>
      by_cases pa : p a
      · rw [List.find?_cons_of_pos _ pa, List.filter_cons, if_pos pa, List.head?_cons]
      · rw [List.find?_cons_of_neg _ pa, List.filter_cons, if_neg pa, ih]

lemma lookupYear_isSome_iff_mem_keys (l : List (ℤ × Report)) (y : ℤ) :
    (lookupYear l y).isSome ↔ y ∈ l.map (fun p => p.1) := by
  simp only [lookupYear, Option.isSome_map', List.find?_isSome, List.mem_map, beq_iff_eq]

/-- A year appears among the lookup keys exactly when some report of the
sequence carries that (valid) fiscal-year key. -/
lemma mem_keys_buildByYear (rs : List Report) (y : ℤ) :
    y ∈ (buildByYear rs).map (fun p => p.1) ↔ ∃ r ∈ rs, yearKey r = some y := by
  rw [← lookupYear_isSome_iff_mem_keys, lookupYear_buildByYear, List.find?_isSome]
  simp only [List.mem_reverse, beq_iff_eq]

/-! ### Concrete fixtures used by witnesses -/

/-- Income record of end-to-end scenario 1 (spec §8). -/
def inc2023 : Report :=
  { fiscalDateEnding := some "2023-12-31", totalRevenue := some "10,000",
    netIncome := some "1,000" }

/-- Balance record of end-to-end scenario 1 (spec §8). -/
def bal2023 : Report :=
  { fiscalDateEnding := some "2023-12-31", totalAssets := some "50,000",
    totalLiabilities := some "25,000" }

/-- An income record outside the trailing window for current year 2024. -/
def inc2020 : Report :=
  { fiscalDateEnding := some "2020-12-31", totalRevenue := some "100" }

/-- Its balance-sheet counterpart. -/
def bal2020 : Report :=
  { fiscalDateEnding := some "2020-12-31", totalAssets := some "50" }

/-- A record whose fiscal-date field does not yield a usable year. -/
def badDate : Report := { fiscalDateEnding := some "n/a" }

/-! ### C9, C10, C4 -/

/-- C9: for every report sequence and year, the fiscal-year lookup built
by /load maps the year to the last record of the sequence carrying that
year key (last record wins on duplicates); the construction is a total
function, so no input sequence can make it crash. -/
theorem lookup_last_record_wins (rs : List Report) (y : ℤ) :
    lookupYear (buildByYear rs) y = (rs.filter (fun r => yearKey r == some y)).getLast? := by
  rw [lookupYear_buildByYear, List.getLast?_eq_head?_reverse, ← List.filter_reverse,
    find?_eq_head?_filter]

/-- C10: a report whose `fiscalDateEnding` is absent, or whose first four
characters do not parse (via JS `parseInt`) to a truthy (non-zero,
non-NaN) integer, contributes nothing to the year lookup — removing it
from the sequence leaves the lookup, and hence every set of persisted
rows derived from it, unchanged — and causes no failure. -/
theorem invalid_fiscal_date_omitted (r : Report) (pre post income balance : List Report)
    (yearLimit : ℤ)
    (h : r.fiscalDateEnding = none ∨
      ∃ d, r.fiscalDateEnding = some d ∧
        (parseIntJS (d.data.take 4) = none ∨ parseIntJS (d.data.take 4) = some 0)) :
    buildByYear (pre ++ r :: post) = buildByYear (pre ++ post) ∧
    writtenRows (pre ++ r :: post) balance yearLimit =
      writtenRows (pre ++ post) balance yearLimit ∧
    writtenRows income (pre ++ r :: post) yearLimit =
      writtenRows income (pre ++ post) yearLimit := by
  have hk : yearKey r = none := by
    rcases h with h | ⟨d, hd, hp⟩
    · simp [yearKey, h]
    · by_cases hde : d = ""
      · simp [yearKey, hd, hde]
      · rcases hp with hp | hp <;> simp [yearKey, hd, hde, hp]
  have hstep : buildStep (List.foldl buildStep [] pre) r = List.foldl buildStep [] pre := by
    simp [buildStep, hk]
  have hb : buildByYear (pre ++ r :: post) = buildByYear (pre ++ post) := by
    rw [buildByYear, buildByYear, List.foldl_append, List.foldl_append, List.foldl_cons, hstep]
  exact ⟨hb, by simp only [writtenRows, hb], by simp only [writtenRows, hb]⟩

/-- Witness for C10 at a concrete input: a record dated `"n/a"` is
dropped from the lookup construction. -/
theorem invalid_fiscal_date_omitted_witness :
    buildByYear [badDate, inc2023] = buildByYear [inc2023] := by
  simpa using
    (invalid_fiscal_date_omitted badDate [] [inc2023] [] [] 2021
      (Or.inr ⟨"n/a", rfl, Or.inl (by decide)⟩)).1

/-- C4: a reconciled row is written for fiscal year `y` exactly when some
income report carries year key `y`, `y` is within the trailing window
(`y ≥ currentYear − 3`), and some balance report carries year key `y`;
an income year with no balance counterpart simply contributes no row
(the loop continues — the model is a total function over all inputs). -/
theorem reconciliation_year_filter (income balance : List Report) (currentYear y : ℤ) :
    y ∈ (writtenRows income balance (currentYear - 3)).map PersistedRow.fiscal_year ↔
      (∃ r ∈ income, yearKey r = some y) ∧ currentYear - 3 ≤ y ∧
        ∃ b ∈ balance, yearKey b = some y := by
  have hbal : (lookupYear (buildByYear balance) y).isSome ↔
      ∃ b ∈ balance, yearKey b = some y := by
    rw [lookupYear_buildByYear, List.find?_isSome]
    simp only [List.mem_reverse, beq_iff_eq]
  constructor
  · intro hy
    simp only [writtenRows] at hy
    rw [List.mem_map] at hy
    obtain ⟨row, hrowmem, hfy⟩ := hy
    rw [List.mem_filterMap] at hrowmem
    obtain ⟨year, hyearmem, hg⟩ := hrowmem
    rw [reconcileYear] at hg
    by_cases hlt : year < currentYear - 3
    · rw [if_pos hlt] at hg
      exact absurd hg (by simp)
    · rw [if_neg hlt] at hg
      cases hinc : lookupYear (buildByYear income) year with
      | none =>
          rw [hinc] at hg
          cases hbal2 : lookupYear (buildByYear balance) year <;>
            rw [hbal2] at hg <;> exact absurd hg (by simp)
      | some inc =>
          cases hbal2 : lookupYear (buildByYear balance) year with
          | none => rw [hinc, hbal2] at hg; exact absurd hg (by simp)
          | some bal =>
              rw [hinc, hbal2] at hg
              have hrow : mkRow year inc bal = row := by
                simpa using hg
              have hyy : year = y := by
                rw [← hrow] at hfy
                simpa [mkRow] using hfy
              subst hyy
              exact ⟨(mem_keys_buildByYear income year).mp hyearmem,
                by omega,
                hbal.mp (by rw [hbal2]; rfl)⟩
  · rintro ⟨⟨r, hr, hkr⟩, hle, hbex⟩
    have hykeys : y ∈ (buildByYear income).map (fun p => p.1) :=
      (mem_keys_buildByYear income y).mpr ⟨r, hr, hkr⟩
    obtain ⟨inc, hinc⟩ :=
      Option.isSome_iff_exists.mp ((lookupYear_isSome_iff_mem_keys _ y).mpr hykeys)
    obtain ⟨bal, hbal2⟩ := Option.isSome_iff_exists.mp (hbal.mpr hbex)
    simp only [writtenRows]
    rw [List.mem_map]
    refine ⟨mkRow y inc bal, ?_, by simp [mkRow]⟩
    rw [List.mem_filterMap]
    refine ⟨y, hykeys, ?_⟩
    rw [reconcileYear, if_neg (by omega : ¬y < currentYear - 3), hinc, hbal2]

/-! ### C1, C2: the metrics deriver -/

/-- `find?` returns the unique element satisfying the predicate. -/
lemma find?_eq_some_of_unique {α : Type} {p : α → Bool} {a : α} :
    ∀ {l : List α}, a ∈ l → p a → (∀ b ∈ l, p b → b = a) → l.find? p = some a := by
  intro l
  induction l with
  | nil => intro ha; cases ha
  | cons x t ih =>
      intro ha hpa huniq
      by_cases hx : p x
      · rw [List.find?_cons_of_pos _ hx, huniq x (List.mem_cons_self x t) hx]
      · rw [List.find?_cons_of_neg _ hx]
        have ha' : a ∈ t := by
          cases ha with
          | head => exact absurd hpa hx
          | tail _ h => exact h
        exact ih ha' hpa (fun b hb hpb => huniq b (List.mem_cons_of_mem _ hb) hpb)

/-- The /metrics result set carries at most one row per (symbol,
fiscal_year): `companies.symbol` is UNIQUE and `financial_statements` is
keyed by (company_id, fiscal_year), so the join cannot repeat the pair. -/
def uniqKeyed (rows : List DbRow) : Prop :=
  List.Pairwise (fun a b => ¬(a.symbol = b.symbol ∧ a.fiscal_year = b.fiscal_year)) rows

/-- C1: for every row of the /metrics result, `net_margin` is
`net_income / revenue * 100` when revenue is present and non-zero, and
null when revenue is absent or zero; `current_ratio` is
`total_assets / total_liabilities` when total_liabilities is present and
non-zero, and null otherwise.  Both fields live in `Option ℚ`, where a
NaN is unrepresentable and the guarded division is total, so neither
ratio can produce NaN or raise. -/
theorem metrics_ratio_null_semantics (arr : List DbRow) (row : DbRow) (hrow : row ∈ arr) :
    deriveRow arr row ∈ metricsMap arr ∧
    (∀ q : ℚ, row.revenue = some q → q ≠ 0 →
      (deriveRow arr row).net_margin = some (toNum row.net_income / q * 100)) ∧
    ((row.revenue = none ∨ row.revenue = some 0) → (deriveRow arr row).net_margin = none) ∧
    (∀ q : ℚ, row.total_liabilities = some q → q ≠ 0 →
      (deriveRow arr row).current_ratio = some (toNum row.total_assets / q)) ∧
    ((row.total_liabilities = none ∨ row.total_liabilities = some 0) →
      (deriveRow arr row).current_ratio = none) := by
  refine ⟨List.mem_map_of_mem _ hrow, ?_, ?_, ?_, ?_⟩
  · intro q hq hq0
    simp [deriveRow, truthyNum, toNum, hq, hq0]
  · rintro (h | h) <;> simp [deriveRow, truthyNum, h]
  · intro q hq hq0
    simp [deriveRow, truthyNum, toNum, hq, hq0]
  · rintro (h | h) <;> simp [deriveRow, truthyNum, h]

/-- A /metrics row whose revenue is zero and liabilities are null. -/
def rowNoRev : DbRow :=
  { symbol := "ST", name := "ST", fiscal_year := 2022, revenue := some 0,
    net_income := some 5, total_assets := some 4, total_liabilities := none }

/-- A fully-populated /metrics row (values of end-to-end scenario 1). -/
def rowFull : DbRow :=
  { symbol := "ST", name := "ST", fiscal_year := 2023, revenue := some 10000,
    net_income := some 1000, total_assets := some 50000, total_liabilities := some 25000 }

/-- Witness for C1 at concrete rows: the populated row yields
net_margin 10 and current_ratio 2; the zero/null row yields null ratios. -/
theorem metrics_ratio_null_semantics_witness :
    (deriveRow [rowNoRev, rowFull] rowFull).net_margin = some 10 ∧
    (deriveRow [rowNoRev, rowFull] rowNoRev).net_margin = none ∧
    (deriveRow [rowNoRev, rowFull] rowFull).current_ratio = some 2 ∧
    (deriveRow [rowNoRev, rowFull] rowNoRev).current_ratio = none := by
  have m1 : rowFull ∈ [rowNoRev, rowFull] :=
    List.mem_cons_of_mem _ (List.mem_cons_self _ _)
  have m2 : rowNoRev ∈ [rowNoRev, rowFull] := List.mem_cons_self _ _
  refine ⟨?_, ?_, ?_, ?_⟩
  · have h := (metrics_ratio_null_semantics [rowNoRev, rowFull] rowFull m1).2.1 10000 rfl
      (by norm_num)
    rw [h]
    norm_num [rowFull, toNum]
  · exact (metrics_ratio_null_semantics [rowNoRev, rowFull] rowNoRev m2).2.2.1 (Or.inr rfl)
  · have h := (metrics_ratio_null_semantics [rowNoRev, rowFull] rowFull m1).2.2.2.1 25000 rfl
      (by norm_num)
    rw [h]
    norm_num [rowFull, toNum]
  · exact (metrics_ratio_null_semantics [rowNoRev, rowFull] rowNoRev m2).2.2.2.2 (Or.inl rfl)

/-- C2: for every row of the /metrics result (with the result set keyed
uniquely, as the join guarantees), the prior-year row is whichever member
of the whole set matches by symbol equality and fiscal-year-minus-one
equality — not by adjacency — and `revenue_yoy` /
`net_income_yoy` are the percentage growth against it when it exists with
a truthy value, null otherwise. -/
theorem metrics_yoy_prior_year_semantics (rows : List DbRow) (row : DbRow)
    (hrow : row ∈ rows) (huniq : uniqKeyed rows) :
    (∀ p ∈ rows, p.symbol = row.symbol → p.fiscal_year = row.fiscal_year - 1 →
      (deriveRow rows row).revenue_yoy =
        (if truthyNum p.revenue then
          some ((toNum row.revenue - toNum p.revenue) / toNum p.revenue * 100)
        else none) ∧
      (deriveRow rows row).net_income_yoy =
        (if truthyNum p.net_income then
          some ((toNum row.net_income - toNum p.net_income) / toNum p.net_income * 100)
        else none)) ∧
    ((∀ p ∈ rows, ¬(p.symbol = row.symbol ∧ p.fiscal_year = row.fiscal_year - 1)) →
      (deriveRow rows row).revenue_yoy = none ∧
      (deriveRow rows row).net_income_yoy = none) := by
  constructor
  · intro p hp hsym hfy
    have hfind : findPrev rows row = some p := by
      apply find?_eq_some_of_unique hp
      · simp [hsym, hfy]
      · intro b hb hpb
        simp only [Bool.and_eq_true, beq_iff_eq] at hpb
        by_contra hne
        have hsymm : Symmetric
            (fun a b : DbRow => ¬(a.symbol = b.symbol ∧ a.fiscal_year = b.fiscal_year)) :=
          fun a b hab hba => hab ⟨hba.1.symm, hba.2.symm⟩
        exact List.Pairwise.forall hsymm huniq hb hp hne
          ⟨hpb.1.trans hsym.symm, hpb.2.trans hfy.symm⟩
    constructor <;> simp [deriveRow, hfind]
  · intro hnone
    have hfind : findPrev rows row = none := by
      rw [findPrev, List.find?_eq_none]
      intro x hx hpx
      simp only [Bool.and_eq_true, beq_iff_eq] at hpx
      exact hnone x hx ⟨hpx.1, hpx.2⟩
    constructor <;> simp [deriveRow, hfind]

/-- First year of end-to-end scenario 3: revenue 100. -/
def rowY1 : DbRow :=
  { symbol := "TEL", name := "TEL", fiscal_year := 2022, revenue := some 100,
    net_income := some 10, total_assets := some 1, total_liabilities := some 1 }

/-- Second year of end-to-end scenario 3: revenue 120. -/
def rowY2 : DbRow :=
  { symbol := "TEL", name := "TEL", fiscal_year := 2023, revenue := some 120,
    net_income := some 12, total_assets := some 1, total_liabilities := some 1 }

/-- Witness for C2 at end-to-end scenario 3: consecutive revenues
100 → 120 give revenue_yoy 20 for the later year and null for the first. -/
theorem metrics_yoy_prior_year_semantics_witness :
    (deriveRow [rowY1, rowY2] rowY2).revenue_yoy = some 20 ∧
    (deriveRow [rowY1, rowY2] rowY1).revenue_yoy = none := by
  constructor
  · have h := (metrics_yoy_prior_year_semantics [rowY1, rowY2] rowY2 (by decide)
      (by unfold uniqKeyed; decide)).1 rowY1 (by decide) rfl (by decide)
    rw [h.1]
    norm_num [truthyNum, toNum, rowY1, rowY2]
  · exact ((metrics_yoy_prior_year_semantics [rowY1, rowY2] rowY1 (by decide)
      (by unfold uniqKeyed; decide)).2 (by decide)).1

/-- Witness for C4 at the trailing-window scenario: with current year 2024
(year limit 2021) an income record for fiscal year 2020 yields no
reconciled row, even though its balance counterpart exists. -/
theorem reconciliation_year_filter_witness :
    ¬(2020 : ℤ) ∈
      (writtenRows [inc2020] [bal2020] ((2024 : ℤ) - 3)).map PersistedRow.fiscal_year := by
  rw [reconciliation_year_filter]
  rintro ⟨-, hle, -⟩
  omega

/-! ### C3: the statement upsert -/

lemma updateVals_company_id (cid : ℕ) (fy : ℤ) (rev ni ta tl : ℚ) (r : FSRow) :
    (updateVals cid fy rev ni ta tl r).company_id = r.company_id := by
  unfold updateVals; split <;> rfl

lemma updateVals_fiscal_year (cid : ℕ) (fy : ℤ) (rev ni ta tl : ℚ) (r : FSRow) :
    (updateVals cid fy rev ni ta tl r).fiscal_year = r.fiscal_year := by
  unfold updateVals; split <;> rfl

lemma fsKeyMatch_updateVals (cid : ℕ) (fy : ℤ) (rev ni ta tl : ℚ) (r : FSRow) :
    fsKeyMatch cid fy (updateVals cid fy rev ni ta tl r) = fsKeyMatch cid fy r := by
  unfold fsKeyMatch
  rw [updateVals_company_id, updateVals_fiscal_year]

lemma updateVals_of_match (cid : ℕ) (fy : ℤ) (rev ni ta tl : ℚ) (r : FSRow)
    (h : fsKeyMatch cid fy r = true) :
    updateVals cid fy rev ni ta tl r = ⟨cid, fy, rev, ni, ta, tl⟩ := by
  have h1 := h
  simp only [fsKeyMatch, Bool.and_eq_true, beq_iff_eq] at h1
  unfold updateVals
  rw [if_pos h]
  cases r
  simp_all

/-- Filtering the updated table by the conflict key leaves exactly the
replaced row (when the key was present), given the primary-key invariant. -/
lemma filter_map_updateVals (cid : ℕ) (fy : ℤ) (rev ni ta tl : ℚ) :
    ∀ t : List FSRow, keyUnique t →
      (t.map (updateVals cid fy rev ni ta tl)).filter (fsKeyMatch cid fy) =
        if t.any (fsKeyMatch cid fy) then [(⟨cid, fy, rev, ni, ta, tl⟩ : FSRow)] else [] := by
  intro t
  induction t with
  | nil => intro _; simp
  | cons r t ih =>
      intro hu
      obtain ⟨hhead, htail⟩ := List.pairwise_cons.mp hu
      by_cases hr : fsKeyMatch cid fy r
      · have hnone : ∀ b ∈ t, fsKeyMatch cid fy b = false := by
          intro b hb
          rw [Bool.eq_false_iff]
          intro hbt
          have hr' := hr
          simp only [fsKeyMatch, Bool.and_eq_true, beq_iff_eq] at hr' hbt
          exact hhead b hb ⟨hr'.1.trans hbt.1.symm, hr'.2.trans hbt.2.symm⟩
        have hmapfilter :
            (t.map (updateVals cid fy rev ni ta tl)).filter (fsKeyMatch cid fy) = [] := by
          rw [List.filter_eq_nil_iff]
          intro a ham
          obtain ⟨b, hb, rfl⟩ := List.mem_map.mp ham
          rw [fsKeyMatch_updateVals, hnone b hb]
          exact Bool.false_ne_true
        rw [List.map_cons, List.filter_cons]
        rw [fsKeyMatch_updateVals] at *
        rw [if_pos hr, updateVals_of_match cid fy rev ni ta tl r hr, hmapfilter,
          if_pos (by rw [List.any_cons, hr, Bool.true_or])]
      · have h1 : updateVals cid fy rev ni ta tl r = r := by
          unfold updateVals; rw [if_neg hr]
        rw [List.map_cons, List.filter_cons, h1, if_neg hr, ih htail,
          List.any_cons, (Bool.eq_false_iff.mpr hr : fsKeyMatch cid fy r = false),
          Bool.false_or]

/-- After an upsert, a row with the upserted key is present. -/
lemma any_upsert (t : List FSRow) (cid : ℕ) (fy : ℤ) (rev ni ta tl : ℚ) :
    (upsertYearlyStatement t cid fy rev ni ta tl).any (fsKeyMatch cid fy) = true := by
  unfold upsertYearlyStatement
  by_cases h : t.any (fsKeyMatch cid fy)
  · rw [if_pos h]
    obtain ⟨r, hr, hpred⟩ := List.any_eq_true.mp h
    exact List.any_eq_true.mpr ⟨updateVals cid fy rev ni ta tl r,
      List.mem_map_of_mem _ hr, by rw [fsKeyMatch_updateVals]; exact hpred⟩
  · rw [if_neg h, List.any_append]
    have h2 : ([(⟨cid, fy, rev, ni, ta, tl⟩ : FSRow)]).any (fsKeyMatch cid fy) = true := by
      simp [fsKeyMatch]
    rw [h2, Bool.or_true]

/-- The upsert preserves the primary-key invariant. -/
lemma keyUnique_upsert (t : List FSRow) (cid : ℕ) (fy : ℤ) (rev ni ta tl : ℚ)
    (hu : keyUnique t) : keyUnique (upsertYearlyStatement t cid fy rev ni ta tl) := by
  unfold upsertYearlyStatement
  by_cases h : t.any (fsKeyMatch cid fy)
  · rw [if_pos h]
    unfold keyUnique at hu ⊢
    rw [List.pairwise_map]
    exact hu.imp (fun {a b} hab => by
      simpa [updateVals_company_id, updateVals_fiscal_year] using hab)
  · rw [if_neg h]
    unfold keyUnique at hu ⊢
    rw [List.pairwise_append]
    refine ⟨hu, List.pairwise_singleton _ _, ?_⟩
    intro a ha b hb
    rw [List.mem_singleton] at hb
    subst hb
    have hfa := List.any_eq_false.mp (Bool.eq_false_iff.mpr h) a ha
    intro hk
    apply hfa
    simp [fsKeyMatch, hk.1, hk.2]

/-- When the key is already present, the upsert takes the DO UPDATE path. -/
lemma upsert_of_any (t : List FSRow) (cid : ℕ) (fy : ℤ) (rev ni ta tl : ℚ)
    (h : t.any (fsKeyMatch cid fy) = true) :
    upsertYearlyStatement t cid fy rev ni ta tl = t.map (updateVals cid fy rev ni ta tl) := by
  unfold upsertYearlyStatement
  rw [if_pos h]

/-- C3: under the primary-key invariant, upserting the same
(company_id, fiscal_year) key twice with different values leaves exactly
one row for that key, carrying the second call's four numeric values (a
full replace, never a field merge), and the invariant still holds. -/
theorem upsert_last_write_wins (t : List FSRow) (cid : ℕ) (fy : ℤ)
    (r1 n1 a1 l1 r2 n2 a2 l2 : ℚ) (hu : keyUnique t) :
    (upsertYearlyStatement (upsertYearlyStatement t cid fy r1 n1 a1 l1)
        cid fy r2 n2 a2 l2).filter (fsKeyMatch cid fy) =
      [(⟨cid, fy, r2, n2, a2, l2⟩ : FSRow)] ∧
    keyUnique (upsertYearlyStatement (upsertYearlyStatement t cid fy r1 n1 a1 l1)
      cid fy r2 n2 a2 l2) := by
  have hu1 : keyUnique (upsertYearlyStatement t cid fy r1 n1 a1 l1) :=
    keyUnique_upsert t cid fy r1 n1 a1 l1 hu
  have hany : (upsertYearlyStatement t cid fy r1 n1 a1 l1).any (fsKeyMatch cid fy) = true :=
    any_upsert t cid fy r1 n1 a1 l1
  constructor
  · rw [upsert_of_any _ cid fy r2 n2 a2 l2 hany,
      filter_map_updateVals cid fy r2 n2 a2 l2 _ hu1, if_pos hany]
  · exact keyUnique_upsert _ cid fy r2 n2 a2 l2 hu1

/-- Witness for C3 on the empty table: two upserts for key (1, 2023)
leave one row with the second call's values. -/
theorem upsert_last_write_wins_witness :
    (upsertYearlyStatement (upsertYearlyStatement [] 1 2023 1 2 3 4)
        1 2023 5 6 7 8).filter (fsKeyMatch 1 2023) = [(⟨1, 2023, 5, 6, 7, 8⟩ : FSRow)] :=
  (upsert_last_write_wins [] 1 2023 1 2 3 4 5 6 7 8 List.Pairwise.nil).1

/-! ### C6: the numeric normalizer -/

lemma not_ws_of_digit (c : Char) (h : c.isDigit = true) : ¬c.isWhitespace = true := by
  intro hw
  have hc : ((c = ' ' ∨ c = '\t') ∨ c = '\r') ∨ c = '\n' := by
    simpa [Char.isWhitespace] using hw
  rcases hc with ((rfl | rfl) | rfl) | rfl <;> exact absurd h (by decide)

lemma dropWhile_ws_eq_self (cs : List Char) (h : ∀ c ∈ cs, ¬c.isWhitespace = true) :
    cs.dropWhile Char.isWhitespace = cs := by
  cases cs with
  | nil => rfl
  | cons a t =>
      rw [List.dropWhile_cons, if_neg (h a (List.mem_cons_self a t))]

lemma trimChars_eq_self (cs : List Char) (h : ∀ c ∈ cs, ¬c.isWhitespace = true) :
    trimChars cs = cs := by
  unfold trimChars
  rw [dropWhile_ws_eq_self cs h,
    dropWhile_ws_eq_self cs.reverse (fun c hc => h c (List.mem_reverse.mp hc)),
    List.reverse_reverse]

lemma stripChars_cons (a : Char) (t : List Char) :
    stripChars (a :: t) =
      if a = ',' ∨ a = ')' then stripChars t
      else if a = '(' then '-' :: stripChars t
      else a :: stripChars t := by
  rfl

lemma stripChars_append (l₁ l₂ : List Char) :
    stripChars (l₁ ++ l₂) = stripChars l₁ ++ stripChars l₂ := by
  induction l₁ with
  | nil => rfl
  | cons a t ih =>
      rw [List.cons_append, stripChars_cons, stripChars_cons]
      split_ifs with h1 h2
      · exact ih
      · rw [ih]; rfl
      · rw [ih]; rfl

/-- On strings made of digits and thousands separators, the character
rewriting of `safeNum` is exactly "drop the commas". -/
lemma stripChars_digit_comma (cs : List Char) (h : ∀ c ∈ cs, c.isDigit = true ∨ c = ',') :
    stripChars cs = cs.filter Char.isDigit := by
  induction cs with
  | nil => rfl
  | cons a t ih =>
      have ih' := ih (fun c hc => h c (List.mem_cons_of_mem a hc))
      rcases h a (List.mem_cons_self a t) with hd | hc
      · have h1 : ¬(a = ',' ∨ a = ')') := by
          rintro (rfl | rfl) <;> exact absurd hd (by decide)
        have h2 : a ≠ '(' := fun he => by rw [he] at hd; exact absurd hd (by decide)
        rw [stripChars_cons, if_neg h1, if_neg h2, List.filter_cons, if_pos hd, ih']
      · subst hc
        rw [stripChars_cons, if_pos (Or.inl rfl), List.filter_cons,
          if_neg (by decide), ih']

lemma takeWhile_ne_dot (cs : List Char) (h : ∀ c ∈ cs, c.isDigit = true) :
    cs.takeWhile (fun c => c ≠ '.') = cs := by
  induction cs with
  | nil => rfl
  | cons a t ih =>
      have ha : a ≠ '.' := fun he => by
        rw [he] at h
        exact absurd (h '.' (List.mem_cons_self _ t)) (by decide)
      rw [List.takeWhile_cons, if_pos (by simpa using ha),
        ih (fun c hc => h c (List.mem_cons_of_mem a hc))]

lemma dropWhile_ne_dot (cs : List Char) (h : ∀ c ∈ cs, c.isDigit = true) :
    cs.dropWhile (fun c => c ≠ '.') = [] := by
  induction cs with
  | nil => rfl
  | cons a t ih =>
      have ha : a ≠ '.' := fun he => by
        rw [he] at h
        exact absurd (h '.' (List.mem_cons_self _ t)) (by decide)
      rw [List.dropWhile_cons, if_pos (by simpa using ha),
        ih (fun c hc => h c (List.mem_cons_of_mem a hc))]

lemma parseUnsigned_digits (cs : List Char) (h : allDigits cs = true) (hne : cs ≠ []) :
    parseUnsigned cs = some ((digitsVal cs : ℕ) : ℚ) := by
  have hall : ∀ c ∈ cs, c.isDigit = true := fun c hc => List.all_eq_true.mp h c hc
  unfold parseUnsigned
  rw [takeWhile_ne_dot cs hall, dropWhile_ne_dot cs hall]
  simp only [if_pos (And.intro hne h)]

lemma jsNumber_digits (cs : List Char) (h : allDigits cs = true) :
    jsNumber cs = some ((digitsVal cs : ℕ) : ℚ) := by
  have hall : ∀ c ∈ cs, c.isDigit = true := fun c hc => List.all_eq_true.mp h c hc
  unfold jsNumber
  rw [trimChars_eq_self cs (fun c hc => not_ws_of_digit c (hall c hc))]
  cases cs with
  | nil => simp [parseSigned, digitsVal]
  | cons a t =>
      rw [if_neg (by simp)]
      have ha : a.isDigit = true := hall a (List.mem_cons_self a t)
      have h1 : a ≠ '-' := fun he => by rw [he] at ha; exact absurd ha (by decide)
      have h2 : a ≠ '+' := fun he => by rw [he] at ha; exact absurd ha (by decide)
      rw [parseSigned, if_neg h1, if_neg h2, parseUnsigned_digits _ h (by simp)]

lemma jsNumber_neg_digits (cs : List Char) (h : allDigits cs = true) (hne : cs ≠ []) :
    jsNumber ('-' :: cs) = some (-((digitsVal cs : ℕ) : ℚ)) := by
  have hall : ∀ c ∈ cs, c.isDigit = true := fun c hc => List.all_eq_true.mp h c hc
  have hnw : ∀ c ∈ ('-' :: cs), ¬c.isWhitespace = true := by
    intro c hc
    cases hc with
    | head => decide
    | tail _ hc => exact not_ws_of_digit c (hall c hc)
  unfold jsNumber
  rw [trimChars_eq_self _ hnw, if_neg (by simp), parseSigned, if_pos rfl,
    parseUnsigned_digits cs h hne]
  rfl

/-- C6: the numeric parser is a total Lean function over its whole input
type, so no input signals failure; absent input normalizes to 0 (the
policy the code picks); a string of digits and thousands separators
normalizes to the integer denoted by its digits; a parenthesized such
string normalizes to the negated value; an unparseable string normalizes
to 0. -/
theorem safeNum_normalization :
    safeNum none = 0 ∧
    (∀ s : String, (∀ c ∈ s.data, c.isDigit = true ∨ c = ',') →
      safeNum (some s) = ((digitsVal (s.data.filter Char.isDigit) : ℕ) : ℚ)) ∧
    (∀ s : String, (∀ c ∈ s.data, c.isDigit = true ∨ c = ',') →
      safeNum (some ("(" ++ s ++ ")")) =
        -((digitsVal (s.data.filter Char.isDigit) : ℕ) : ℚ)) ∧
    safeNum (some "abc") = 0 := by
  have hfilter_digits : ∀ cs : List Char, allDigits (cs.filter Char.isDigit) = true :=
    fun cs => List.all_eq_true.mpr (fun c hc => (List.mem_filter.mp hc).2)
  have hfilter_nws : ∀ cs : List Char, ∀ c ∈ cs.filter Char.isDigit, ¬c.isWhitespace = true :=
    fun cs c hc => not_ws_of_digit c ((List.mem_filter.mp hc).2)
  refine ⟨rfl, ?_, ?_, by decide⟩
  · intro s h
    show safeNumStr s = _
    unfold safeNumStr
    rw [stripChars_digit_comma s.data h, trimChars_eq_self _ (hfilter_nws s.data),
      jsNumber_digits _ (hfilter_digits s.data)]
  · intro s h
    show safeNumStr ("(" ++ s ++ ")") = _
    unfold safeNumStr
    rw [String.data_append, String.data_append, stripChars_append, stripChars_append,
      stripChars_digit_comma s.data h]
    have hps : stripChars "(".data = ['-'] := rfl
    have hpe : stripChars ")".data = [] := rfl
    rw [hps, hpe, List.append_nil]
    cases hds : s.data.filter Char.isDigit with
    | nil => decide
    | cons a t =>
        have hall : allDigits (a :: t) = true := hds ▸ hfilter_digits s.data
        have hnw : ∀ c ∈ ('-' :: a :: t), ¬c.isWhitespace = true := by
          intro c hc
          cases hc with
          | head => decide
          | tail _ hc2 => exact not_ws_of_digit c (List.all_eq_true.mp hall c hc2)
        rw [show (['-'] ++ a :: t) = '-' :: a :: t from rfl,
          trimChars_eq_self _ hnw, jsNumber_neg_digits (a :: t) hall (by simp)]

/-- Witness for C6: `"1,234,567"` normalizes to 1234567 and `"(500)"`
to −500. -/
theorem safeNum_normalization_witness :
    safeNum (some "1,234,567") = 1234567 ∧ safeNum (some "(500)") = -500 := by
  constructor
  · have h := safeNum_normalization.2.1 "1,234,567" (by decide)
    rw [h]; decide
  · have he : ("(500)" : String) = "(" ++ "500" ++ ")" := by decide
    have h := safeNum_normalization.2.2.1 "500" (by decide)
    rw [he, h]; decide

/-! ### C5: the revenue field-selection policy -/

/-- An income record carrying both the reported-revenue field and the
gross-profit proxy. -/
def incBoth : Report :=
  { fiscalDateEnding := some "2023-12-31", grossProfit := some "5,000",
    totalRevenue := some "10,000", netIncome := some "1,000" }

/-- C5 counterexample: with both fields present, the reconciled revenue is
the `grossProfit` value 5000, not the `totalRevenue` value 10000 — the
source line is `safeNum(inc.grossProfit ?? inc.totalRevenue ?? 0)`, so the
proxy field takes precedence, contradicting the claim that the primary
reported-revenue field wins when both are available. -/
theorem revenue_primary_field_counterexample :
    (mkRow 2023 incBoth bal2023).revenue = 5000 ∧
    safeNum incBoth.totalRevenue = 10000 ∧
    (mkRow 2023 incBoth bal2023).revenue ≠ safeNum incBoth.totalRevenue := by
  refine ⟨by decide, by decide, by decide⟩

/-- C5 amended: revenue is read from `grossProfit` whenever it is present,
and from `totalRevenue` only when `grossProfit` is absent; reconciling the
scenario-1 records (which carry no `grossProfit`) persists
(10000, 1000, 50000, 25000), whose derived metrics are net_margin 10.0 and
current_ratio 2.0. -/
theorem revenue_field_fallback (inc : Report) :
    (∀ s, inc.grossProfit = some s → revenueField inc = some s) ∧
    (inc.grossProfit = none → revenueField inc = inc.totalRevenue) ∧
    writtenRows [inc2023] [bal2023] 2021 =
      [({ fiscal_year := 2023, revenue := 10000, net_income := 1000,
          total_assets := 50000, total_liabilities := 25000 } : PersistedRow)] ∧
    (deriveRow [rowFull] rowFull).net_margin = some 10 ∧
    (deriveRow [rowFull] rowFull).current_ratio = some 2 := by
  refine ⟨?_, ?_, by decide, ?_, ?_⟩
  · intro s hs
    unfold revenueField
    rw [hs]
  · intro hs
    unfold revenueField
    rw [hs]
  · norm_num [deriveRow, findPrev, truthyNum, toNum, rowFull]
  · norm_num [deriveRow, findPrev, truthyNum, toNum, rowFull]

/-- Witness for C5 (amended): `grossProfit` wins when present, and
`totalRevenue` is used when it is absent. -/
theorem revenue_field_fallback_witness :
    revenueField { grossProfit := some "7", totalRevenue := some "8" } = some "7" ∧
    revenueField { totalRevenue := some "8" } = some "8" := by
  constructor
  · exact (revenue_field_fallback _).1 "7" rfl
  · rw [(revenue_field_fallback { totalRevenue := some "8" }).2.1 rfl]

/-! ### C7: degraded upstream responses -/

/-- A degraded upstream outcome: a thrown fetch error, a truthy rate-limit
`Note`, a truthy `Information` message, or a missing/empty
`annualReports` payload. -/
def degraded (o : FetchOutcome) : Prop :=
  o = FetchOutcome.failed ∨
    ∃ d, o = FetchOutcome.ok d ∧
      (jsTruthyStr d.note = true ∨ jsTruthyStr d.information = true ∨
        d.annualReports = none ∨ d.annualReports = some [])

/-- The /load loop over the fixed symbol list: every company is processed
with its own fetch outcomes, independently of the others. -/
def runLoad (companies : List (FetchOutcome × FetchOutcome)) (yearLimit : ℤ) :
    List (List PersistedRow) :=
  companies.map (fun c => loadCompanyRows c.1 c.2 yearLimit)

/-- C7: every degraded upstream outcome — fetch error, rate-limit note,
informational-only body, or missing/empty report list — normalizes to the
same zero-record result, and a company whose income or balance fetch is
degraded gets no statement rows written that cycle; the run itself still
processes every company (one output per company, never aborted). -/
theorem degraded_fetch_zero_rows (o other : FetchOutcome) (yearLimit : ℤ)
    (h : degraded o) :
    fetchStatementReports o = [] ∧
    loadCompanyRows o other yearLimit = [] ∧
    loadCompanyRows other o yearLimit = [] ∧
    ∀ companies : List (FetchOutcome × FetchOutcome),
      (runLoad companies yearLimit).length = companies.length := by
  have hrep : fetchStatementReports o = [] := by
    rcases h with rfl | ⟨d, rfl, hcase⟩
    · rfl
    · rcases hcase with hn | hi | ha | ha
      · simp [fetchStatementReports, hn]
      · simp [fetchStatementReports, hi]
      · simp [fetchStatementReports, ha]
      · simp [fetchStatementReports, ha]
  have hempty1 : ∀ bal : List Report, writtenRows [] bal yearLimit = [] := fun bal => rfl
  have hempty2 : ∀ inc : List Report, writtenRows inc [] yearLimit = [] := by
    intro inc
    simp only [writtenRows]
    rw [List.filterMap_eq_nil_iff]
    intro year _
    rw [reconcileYear]
    by_cases hlt : year < yearLimit
    · rw [if_pos hlt]
    · rw [if_neg hlt]
      cases lookupYear (buildByYear inc) year <;> rfl
  refine ⟨hrep, ?_, ?_, fun companies => by simp [runLoad]⟩
  · unfold loadCompanyRows
    rw [hrep]
    exact hempty1 _
  · unfold loadCompanyRows
    rw [hrep]
    exact hempty2 _

/-- Witness for C7: a rate-limited income response yields zero reports and
zero statement rows for the company, despite a populated balance fetch. -/
theorem degraded_fetch_zero_rows_witness :
    fetchStatementReports (FetchOutcome.ok { note := some "rate limited" }) = [] ∧
    loadCompanyRows (FetchOutcome.ok { note := some "rate limited" })
      (FetchOutcome.ok { annualReports := some [bal2023] }) 2021 = [] := by
  have h := degraded_fetch_zero_rows (FetchOutcome.ok { note := some "rate limited" })
    (FetchOutcome.ok { annualReports := some [bal2023] }) 2021
    (Or.inr ⟨_, rfl, Or.inl (by decide)⟩)
  exact ⟨h.1, h.2.1⟩

/-! ### C8: the EtlRun record and the /load response -/

/-- C8 counterexample: when the `etl_runs` insert fails, /load still
responds with the success body "Data loaded" — the failure is caught and
logged, never surfaced as the 500 "ETL failed" run-failure response, so
the claim that the invocation is reported as a run failure is false. -/
theorem etl_run_failure_response_counterexample :
    loadFinish false = LoadResponse.ok "Data loaded" ∧
    loadFinish false ≠ LoadResponse.serverError "ETL failed" := by
  exact ⟨rfl, by decide⟩

/-- C8 amended: whether or not the `etl_runs` insert succeeds, /load
reports success ("Data loaded") to its caller; the insert failure is only
logged. -/
theorem etl_run_failure_response_amended (etlInsertSucceeds : Bool) :
    loadFinish etlInsertSucceeds = LoadResponse.ok "Data loaded" := rfl

end AVDash
